import Mathlib

set_option maxHeartbeats 1000000

namespace HIV

/-! Shallow embedding of src/HIV_v2.js: color registry, input parser,
breakpoint calculator, coordinate scale and the drawing passes of
drawToContext, modelled as pure functions over explicit state. -/

/-- Fixed default subtype colors (DEFAULT_COLORS object in HIV_v2.js). -/
def DEFAULT_COLORS : List (String × String) :=
  [("A", "#FF0000"), ("A1", "#FF5700"), ("A2", "#FF7E5E"),
   ("B", "#3F98F2"), ("C", "#9D6039"), ("D", "#E3A1C9"),
   ("E", "#FFFF64"), ("F", "#BEE120"), ("F1", "#C5CAFF"),
   ("F2", "#97D7FF"), ("G", "#4FAE57"), ("H", "#FFD700"),
   ("J", "#20D7CF"), ("J1", "#FFB600"), ("J2", "#FFD700"),
   ("K", "#7C45D9"), ("01", "#7C45D9"), ("02", "#D7B320"),
   ("?", "#DCDCDC"), ("U", "#DCDCDC")]

/-- Fallback palette (FALLBACK_COLORS array in HIV_v2.js). -/
def FALLBACK_COLORS : List String :=
  ["#FF6347", "#20B2AA", "#DDA0DD", "#F0E68C", "#BC8F8F",
   "#4682B4", "#D2691E", "#6B8E23", "#CD5C5C", "#708090"]

/-- Mutable registry state of the color module: the assignedColors map
(as an insertion-ordered association list) and fallbackColorIndex. -/
structure ColorState where
  assignedColors : List (String × String)
  fallbackColorIndex : Nat
  deriving Repr, DecidableEq

/-- The registry state at process start: empty map, index 0. -/
def initialColorState : ColorState := ⟨[], 0⟩

/-- The getColor function of HIV_v2.js, with the global registry state
threaded explicitly: returns the color and the updated state. -/
def getColor (subtype : String) (st : ColorState) : String × ColorState :=
  match DEFAULT_COLORS.lookup subtype with
  | some c => (c, st)
  | none =>
    match st.assignedColors.lookup subtype with
    | some c => (c, st)
    | none =>
      let color := FALLBACK_COLORS.getD (st.fallbackColorIndex % FALLBACK_COLORS.length) ""
      (color, ⟨st.assignedColors ++ [(subtype, color)], st.fallbackColorIndex + 1⟩)

/-- One entry of the fixed gene map table (GENE_MAP in HIV_v2.js). -/
structure GeneFeature where
  name : String
  start : Int
  endPos : Int
  row : Nat
  bgColor : String
  noOverlay : Bool := false
  deriving Repr, DecidableEq

/-- The fixed 13-entry gene map table (GENE_MAP array in HIV_v2.js). -/
def GENE_MAP : List GeneFeature :=
  [⟨"5' LTR", 1, 634, 1, "#CCCCCC", false⟩,
   ⟨"gag", 790, 2292, 1, "#CCCCCC", false⟩,
   ⟨"vif", 5041, 5619, 1, "#CCCCCC", false⟩,
   ⟨"", 8379, 8469, 1, "#CCCCCC", false⟩,
   ⟨"nef", 8797, 9417, 1, "#FFFFFF", false⟩,
   ⟨"", 5831, 6045, 2, "#FFB6C1", true⟩,
   ⟨"vpu", 6062, 6310, 2, "#CCCCCC", false⟩,
   ⟨"", 8379, 8653, 2, "#CCCCCC", false⟩,
   ⟨"3' LTR", 9086, 9719, 2, "#FFFFFF", false⟩,
   ⟨"pol", 2085, 5096, 3, "#CCCCCC", false⟩,
   ⟨"vpr", 5559, 5850, 3, "#CCCCCC", false⟩,
   ⟨"", 5970, 6045, 3, "#CCCCCC", false⟩,
   ⟨"env", 6225, 8795, 3, "#CCCCCC", false⟩]

/-- Canvas margins (RENDER_CONFIG.margin). -/
structure Margin where
  top : ℚ
  right : ℚ
  bottom : ℚ
  left : ℚ
  deriving Repr

/-- Render constants (RENDER_CONFIG object in HIV_v2.js). -/
structure RenderConfigT where
  width : ℚ
  height : ℚ
  margin : Margin
  geneRowHeight : ℚ
  geneRowGap : ℚ
  axisRange : ℚ × ℚ
  deriving Repr

/-- The fixed render configuration of HIV_v2.js. -/
def RENDER_CONFIG : RenderConfigT :=
  { width := 900, height := 300,
    margin := ⟨60, 50, 80, 50⟩,
    geneRowHeight := 25, geneRowGap := 10,
    axisRange := (0, 9719) }

/-- A parsed subtype region ({start, end, subtype, color} in HIV_v2.js). -/
structure Region where
  start : Int
  endPos : Int
  subtype : String
  color : String
  deriving Repr, DecidableEq

/-- JavaScript parseInt(s, 10): skip leading whitespace, optional sign,
then the longest digit prefix; none (NaN) when that prefix is empty. -/
def jsParseInt (s : String) : Option Int :=
  let cs := s.toList.dropWhile Char.isWhitespace
  let signedTail : Int × List Char :=
    match cs with
    | '-' :: t => (-1, t)
    | '+' :: t => (1, t)
    | _ => (1, cs)
  let ds := signedTail.2.takeWhile Char.isDigit
  if ds.isEmpty then none
  else some (signedTail.1 * (ds.foldl (fun acc c => acc * 10 + (c.toNat - '0'.toNat)) 0 : Nat))

/-- Split a character list at each newline, as JavaScript split of a
string on a newline separator does (an empty string yields one empty
line). Structural so the kernel can evaluate it. -/
def splitLines : List Char → List (List Char)
  | [] => [[]]
  | c :: cs =>
    if c = '\n' then [] :: splitLines cs
    else
      match splitLines cs with
      | [] => [[c]]
      | l :: ls => (c :: l) :: ls

/-- Drop leading and trailing whitespace, as JavaScript trim does. -/
def trimChars (cs : List Char) : List Char :=
  ((cs.dropWhile Char.isWhitespace).reverse.dropWhile Char.isWhitespace).reverse

/-- Split at every whitespace character (the raw token split of the data
line regular expression, before empty parts are dropped). -/
def splitWsAux (cur : List Char) : List Char → List (List Char)
  | [] => [cur.reverse]
  | c :: cs =>
    if c.isWhitespace then cur.reverse :: splitWsAux [] cs
    else splitWsAux (c :: cur) cs

/-- Tokenize a trimmed data line on runs of whitespace: splitting on the
whitespace regular expression of HIV_v2.js yields no empty tokens on a
trimmed line, realized here by dropping empties. -/
def tokenize (cs : List Char) : List (List Char) :=
  (splitWsAux [] cs).filter (· ≠ [])

/-- Rejoin the label tokens after the second field with single spaces
(the slice-and-join of HIV_v2.js). -/
def joinSpace : List (List Char) → List Char
  | [] => []
  | [t] => t
  | t :: ts => t ++ ' ' :: joinSpace ts

/-- Per-line loop state of parseInput: the headerFound flag, the regions
accumulated so far, the line numbers warned about for bad field counts,
and the color registry state. -/
structure LoopState where
  headerFound : Bool
  regions : List Region
  lineWarnings : List Nat
  colors : ColorState
  deriving Repr

/-- Tail of a successfully number-parsed data line: drop it when the
rejoined label is empty, otherwise normalize the pair and append one
region colored through the registry. -/
def pushRegion (a b : Int) (parts : List (List Char)) (s : LoopState) : LoopState :=
  let subtype := String.mk (joinSpace (parts.drop 2))
  if subtype = "" then s
  else
    let finalStart := if a > b then b else a
    let finalEnd := if a > b then a else b
    let res := getColor subtype s.colors
    { s with
      regions := s.regions ++ [⟨finalStart, finalEnd, subtype, res.1⟩],
      colors := res.2 }

/-- Step 5 of the parseInput loop: handle one already-tokenized data line
(parts), at 1-based line number ln, against loop state s. -/
def parseDataLine (parts : List (List Char)) (ln : Nat) (s : LoopState) : LoopState :=
  if parts.length < 3 then { s with lineWarnings := s.lineWarnings ++ [ln] }
  else
    match jsParseInt (String.mk (parts.getD 0 [])), jsParseInt (String.mk (parts.getD 1 [])) with
    | some a, some b => pushRegion a b parts s
    | _, _ => s

/-- One iteration of the parseInput line loop at 1-based line number ln. -/
def processLine (ln : Nat) (rawLine : List Char) (s : LoopState) : LoopState :=
  let line := trimChars rawLine
  if line = [] then s
  else if line.headD ' ' = '#' then s
  else if line.headD ' ' = '>' then { s with headerFound := true }
  else if !s.headerFound then s
  else parseDataLine (tokenize line) ln s

/-- Run the parseInput loop over the numbered lines. -/
def runLines : Nat → List (List Char) → LoopState → LoopState
  | _, [], s => s
  | ln, l :: ls, s => runLines (ln + 1) ls (processLine ln l s)

/-- Observable result of parseInput: the region list, whether the final
no-header warning fired, and the warned line numbers. -/
structure ParseResult where
  regions : List Region
  noHeaderWarning : Bool
  lineWarnings : List Nat
  deriving Repr

/-- The parseInput function of HIV_v2.js with the color registry state
threaded explicitly. Empty/whitespace-only text returns early with no
warning; otherwise the line loop runs and the no-header warning fires
exactly when no header line was seen. -/
def parseInput (text : String) (st : ColorState) : ParseResult × ColorState :=
  if trimChars text.toList = [] then (⟨[], false, []⟩, st)
  else
    let fin := runLines 1 (splitLines text.toList) ⟨false, [], [], st⟩
    (⟨fin.regions, !fin.headerFound, fin.lineWarnings⟩, fin.colors)

/-- An axis breakpoint entry ({position, displayValue, isFirst, isLast}). -/
structure Breakpoint where
  position : Int
  displayValue : Int
  isFirst : Bool
  isLast : Bool
  deriving Repr, DecidableEq

/-- The stable sort of a copy of the regions by ascending start used by
calculateBreakpoints (Array.sort with the start-difference comparator is
stable in JavaScript); insertion sort with a total ≤ realizes the same
stable ordering. -/
def sortByStart (regions : List Region) : List Region :=
  regions.insertionSort (fun a b => a.start ≤ b.start)

/-- The body of the calculateBreakpoints loop over the sorted regions:
every region contributes its start (the first flagged isFirst), and the
last region additionally contributes its end (flagged isLast). -/
def bpLoop : Bool → List Region → List Breakpoint
  | _, [] => []
  | first, [r] =>
    [⟨r.start, r.start, first, false⟩, ⟨r.endPos, r.endPos, false, true⟩]
  | first, r :: rest => ⟨r.start, r.start, first, false⟩ :: bpLoop false rest

/-- The calculateBreakpoints function of HIV_v2.js. -/
def calculateBreakpoints (regions : List Region) : List Breakpoint :=
  match regions with
  | [] => []
  | _ :: _ => bpLoop true (sortByStart regions)

/-- The linear scale returned by createXScale: fixed domain
RENDER_CONFIG.axisRange, fixed range from the left margin to width minus
the right margin, no clamping. -/
def createXScale : ℚ → ℚ := fun value =>
  let domain := RENDER_CONFIG.axisRange
  let rlo := RENDER_CONFIG.margin.left
  let rhi := RENDER_CONFIG.width - RENDER_CONFIG.margin.right
  let t := (value - domain.1) / (domain.2 - domain.1)
  rlo + t * (rhi - rlo)

/-- The scale as used inside drawToContext. -/
def xScale : ℚ → ℚ := createXScale

/-- The getRowY helper of drawToContext. -/
def getRowY (row : Nat) : ℚ :=
  RENDER_CONFIG.margin.top + 20 + ((row : ℚ) - 1) * (RENDER_CONFIG.geneRowHeight + RENDER_CONFIG.geneRowGap)

/-- One drawing-surface operation issued by drawToContext, with the
geometry and the style in effect at the call. Rotation is recorded in
degrees (the only rotation used is the minus ninety degree label turn). -/
inductive DrawOp where
  | fillRect (x y w h : ℚ) (color : String) (alpha : ℚ)
  | strokeRect (x y w h : ℚ) (color : String) (lineWidth : ℚ)
  | path (pts : List (ℚ × ℚ)) (color : String) (lineWidth : ℚ)
  | text (s : String) (x y : ℚ) (font : String) (color : String) (align : String) (rotateDeg : ℚ)
  deriving Repr, DecidableEq

/-- The 12px font string set for gene names and connector labels. -/
def font12 : String := "12px \"Liberation Sans\", Arial, sans-serif"

/-- The 11px font string set for breakpoint labels and the legend. -/
def font11 : String := "11px \"Liberation Sans\", Arial, sans-serif"

/-- The 10px font string set for axis tick labels. -/
def font10 : String := "10px \"Liberation Sans\", Arial, sans-serif"

/-- Pass 0 of drawToContext: the white full-canvas background. -/
def backgroundOps : List DrawOp :=
  [DrawOp.fillRect 0 0 RENDER_CONFIG.width RENDER_CONFIG.height ("white") 1]

/-- Pass 1, one gene feature: its background rectangle, plus the thin
black outline for the two named features nef and 3' LTR. -/
def geneRectOps (g : GeneFeature) : List DrawOp :=
  let x := xScale g.start
  let y := getRowY g.row
  let w := xScale g.endPos - xScale g.start
  [DrawOp.fillRect x y w RENDER_CONFIG.geneRowHeight g.bgColor 1] ++
    (if g.name = "nef" ∨ g.name = "3' LTR" then
      [DrawOp.strokeRect x y w RENDER_CONFIG.geneRowHeight ("#000000") 0.2]
    else [])

/-- Pass 1 of drawToContext: the gene map background rectangles. -/
def geneMapOps : List DrawOp := GENE_MAP.flatMap geneRectOps

/-- The overlay rectangle drawToContext paints for one (region, gene)
pair: present exactly when the strict-overlap test
max start < min end succeeds. -/
def overlayRectFor (r : Region) (g : GeneFeature) : Option DrawOp :=
  let overlapStart := max r.start g.start
  let overlapEnd := min r.endPos g.endPos
  if overlapStart < overlapEnd then
    some (DrawOp.fillRect (xScale overlapStart) (getRowY g.row)
      (xScale overlapEnd - xScale overlapStart) RENDER_CONFIG.geneRowHeight r.color 0.8)
  else none

/-- Pass 2 of drawToContext: the semi-transparent subtype overlays, one
per region and overlapping gene feature, in loop order. -/
def overlayOps (regions : List Region) : List DrawOp :=
  regions.flatMap fun r => GENE_MAP.filterMap fun g => overlayRectFor r g

/-- Pass 3 of drawToContext: gene names centered in their rectangles. -/
def geneNameOps : List DrawOp :=
  (GENE_MAP.filter (fun g => g.name ≠ "")).map fun g =>
    DrawOp.text g.name (xScale g.start + (xScale g.endPos - xScale g.start) / 2)
      (getRowY g.row + RENDER_CONFIG.geneRowHeight / 2) font12 ("#333333") ("center") 0

/-- Pass 4 of drawToContext: the two fixed tat and rev connector
polylines and their labels. -/
def connectorOps : List DrawOp :=
  let tatFromX := xScale 6045
  let tatToX := xScale 8379
  let tatFromY := getRowY 2 - 5
  let tatToY := getRowY 1 + RENDER_CONFIG.geneRowHeight / 2
  let revFromX := xScale 6045
  let revToX := xScale 8379
  let revFromY := getRowY 3
  let revToY := getRowY 2 + RENDER_CONFIG.geneRowHeight / 2
  let revMidY := revFromY - 5
  let revTurnX := xScale 7200
  [DrawOp.path [(tatFromX, tatFromY), (tatFromX, tatToY), (tatToX, tatToY)] ("#666666") 1,
   DrawOp.text ("tat") ((tatFromX + tatToX) / 2) (tatToY - 5) font12 ("#333333") ("center") 0,
   DrawOp.path [(revFromX, revFromY), (revFromX, revMidY), (revTurnX, revMidY), (revToX, revToY)] ("#666666") 1,
   DrawOp.text ("rev") ((revFromX + revTurnX) / 2 + 30) (revMidY - 5) font12 ("#333333") ("center") 0]

/-- Top y of a breakpoint tick. -/
def tickStartY : ℚ := RENDER_CONFIG.margin.top + 20 - 11

/-- Bottom y of a breakpoint tick. -/
def tickEndY : ℚ := tickStartY + 8

/-- Baseline y of a rotated breakpoint number. -/
def numberY : ℚ := tickStartY - 3

/-- Pass 5 of drawToContext: a tick and a rotated number per breakpoint. -/
def breakpointOps (regions : List Region) : List DrawOp :=
  (calculateBreakpoints regions).flatMap fun bp =>
    let x := xScale bp.position
    [DrawOp.path [(x, tickStartY), (x, tickEndY)] ("#333333") 1,
     DrawOp.text (toString bp.displayValue) (x + 4) numberY font11 ("#333333") ("left") (-90)]

/-- y of the bottom axis line. -/
def axisY : ℚ := getRowY 3 + RENDER_CONFIG.geneRowHeight + 10

/-- The fixed axis tick positions of drawToContext. -/
def AXIS_TICKS : List Int :=
  [0, 1000, 2000, 3000, 4000, 5000, 6000, 7000, 8000, 9000, 9719]

/-- Pass 6 of drawToContext: the axis line, ticks and tick labels. -/
def axisOps : List DrawOp :=
  [DrawOp.path [(RENDER_CONFIG.margin.left, axisY),
      (RENDER_CONFIG.width - RENDER_CONFIG.margin.right, axisY)] ("#bdc3c7") 1] ++
    AXIS_TICKS.flatMap fun v =>
      [DrawOp.path [(xScale v, axisY), (xScale v, axisY + 5)] ("#bdc3c7") 1,
       DrawOp.text (toString v) (xScale v) (axisY + 15) font10 ("#7f8c8d") ("center") 0]

/-- The subtypeMap loop of pass 7: keep the first (subtype, color) pair
for each distinct subtype, in first-encounter order. -/
def buildSubtypeMap (acc : List (String × String)) : List Region → List (String × String)
  | [] => acc
  | r :: rs =>
    if acc.any (fun p => p.1 = r.subtype) then buildSubtypeMap acc rs
    else buildSubtypeMap (acc ++ [(r.subtype, r.color)]) rs

/-- The legendData array of pass 7. -/
def legendData (regions : List Region) : List (String × String) :=
  buildSubtypeMap [] regions

/-- y of the legend swatches. -/
def legendY : ℚ := RENDER_CONFIG.height - 30

/-- Pass 7 of drawToContext: a swatch, its outline and its label per
legend entry, spaced 80 pixels apart. -/
def legendOps (regions : List Region) : List DrawOp :=
  (legendData regions).enum.flatMap fun p =>
    let x := RENDER_CONFIG.margin.left + (p.1 : ℚ) * 80
    [DrawOp.fillRect x legendY 15 15 p.2.2 1,
     DrawOp.strokeRect x legendY 15 15 ("#999999") 0.5,
     DrawOp.text p.2.1 (x + 20) (legendY + 12) font11 ("#333333") ("left") 0]

/-- The full ordered operation sequence drawToContext issues for a
region list. -/
def drawOps (regions : List Region) : List DrawOp :=
  backgroundOps ++ geneMapOps ++ overlayOps regions ++ geneNameOps ++
    connectorOps ++ breakpointOps regions ++ axisOps ++ legendOps regions

/-- The geometry of the PNG pass of main: parse from a fresh registry,
then one independent drawToContext run. -/
def pngGeometry (text : String) : List DrawOp :=
  drawOps ((parseInput text initialColorState).1.regions)

/-- The geometry of the PDF pass of main: parse from a fresh registry,
then one independent drawToContext run. -/
def pdfGeometry (text : String) : List DrawOp :=
  drawOps ((parseInput text initialColorState).1.regions)

/-- A session of the Color Registry: replay a sequence of getColor calls
from a starting state, keeping only the final state. -/
def runCalls (labels : List String) (st : ColorState) : ColorState :=
  labels.foldl (fun s l => (getColor l s).2) st

/-- The distinct novel labels of a call sequence in first-sighting
order: labels outside the default table, deduplicated (these are exactly
the calls that advance the fallback cursor). -/
def novelDistinct (calls : List String) : List String :=
  calls.foldl
    (fun acc l =>
      if DEFAULT_COLORS.lookup l ≠ none ∨ l ∈ acc then acc else acc ++ [l]) []

/-- Spec-side expected registry contents: starting at cursor i, the j-th
listed label carries the fallback color at index (i + j) mod 10. -/
def specAssignedFrom (i : Nat) : List String → List (String × String)
  | [] => []
  | l :: ls =>
    (l, FALLBACK_COLORS.getD (i % FALLBACK_COLORS.length) "")
      :: specAssignedFrom (i + 1) ls

/-- Spec-side legend of §4.5 step 8: one entry per distinct subtype
label in first-occurrence order, carrying the color of the first region
with that label; seen accumulates the labels already emitted. -/
def specLegendAux (seen : List String) : List Region → List (String × String)
  | [] => []
  | r :: rs =>
    if r.subtype ∈ seen then specLegendAux seen rs
    else (r.subtype, r.color) :: specLegendAux (r.subtype :: seen) rs

/-- Spec-side legend with no labels seen yet. -/
def specLegend (regions : List Region) : List (String × String) :=
  specLegendAux [] regions

/-! Helper lemmas about the breakpoint loop. -/

/-- A default region used only to state getLastD equalities. -/
def dfltRegion : Region := ⟨0, 0, "", ""⟩

theorem bpLoop_length (first : Bool) (rs : List Region) (h : rs ≠ []) :
    (bpLoop first rs).length = rs.length + 1 := by
  induction rs generalizing first with
  | nil => exact absurd rfl h
  | cons r rest ih =>
    cases rest with
    | nil => rfl
    | cons r2 rest2 =>
      simp only [bpLoop, List.length_cons]
      rw [ih false (by simp)]
      simp

theorem bpLoop_positions (first : Bool) (rs : List Region) (h : rs ≠ []) :
    (bpLoop first rs).map Breakpoint.position
      = rs.map Region.start ++ [(rs.getLastD dfltRegion).endPos] := by
  induction rs generalizing first with
  | nil => exact absurd rfl h
  | cons r rest ih =>
    cases rest with
    | nil => rfl
    | cons r2 rest2 =>
      simp only [bpLoop, List.map_cons, List.cons_append]
      rw [ih false (by simp)]
      simp [List.getLastD_cons]

theorem bpLoop_isFirst (first : Bool) (rs : List Region) (h : rs ≠ []) :
    (bpLoop first rs).map Breakpoint.isFirst
      = first :: List.replicate rs.length false := by
  induction rs generalizing first with
  | nil => exact absurd rfl h
  | cons r rest ih =>
    cases rest with
    | nil => rfl
    | cons r2 rest2 =>
      simp only [bpLoop, List.map_cons, List.length_cons]
      rw [ih false (by simp)]
      simp [List.replicate_succ]

theorem bpLoop_isLast (first : Bool) (rs : List Region) (h : rs ≠ []) :
    (bpLoop first rs).map Breakpoint.isLast
      = List.replicate rs.length false ++ [true] := by
  induction rs generalizing first with
  | nil => exact absurd rfl h
  | cons r rest ih =>
    cases rest with
    | nil => rfl
    | cons r2 rest2 =>
      simp only [bpLoop, List.map_cons, List.length_cons]
      rw [ih false (by simp)]
      simp [List.replicate_succ]

theorem sortByStart_length (regions : List Region) :
    (sortByStart regions).length = regions.length := by
  simp [sortByStart, List.length_insertionSort]

theorem calculateBreakpoints_eq_bpLoop (regions : List Region) (h : regions ≠ []) :
    calculateBreakpoints regions = bpLoop true (sortByStart regions) := by
  cases regions with
  | nil => exact absurd rfl h
  | cons r rest => rfl

/-- C1 counterexample: two regions already give three breakpoints, not
two — calculateBreakpoints emits the start of every sorted region plus
the last region's end, so intermediate starts are surfaced. -/
theorem C1_counterexample :
    calculateBreakpoints [⟨100, 500, "B", "#3F98F2"⟩, ⟨500, 1000, "A1", "#FF5700"⟩]
      = [⟨100, 100, true, false⟩, ⟨500, 500, false, false⟩, ⟨1000, 1000, false, true⟩] ∧
    (calculateBreakpoints [⟨100, 500, "B", "#3F98F2"⟩, ⟨500, 1000, "A1", "#FF5700"⟩]).length
      ≠ 2 := by
  decide

/-- C1 amended: for every non-empty region list the Breakpoint
Calculator returns length + 1 breakpoints — one at each sorted region's
start (only the first flagged isFirst) and one at the last sorted
region's end (flagged isLast); the empty list yields the empty list. -/
theorem C1_amended (regions : List Region) (h : regions ≠ []) :
    (calculateBreakpoints regions).length = regions.length + 1 ∧
    (calculateBreakpoints regions).map Breakpoint.position
      = (sortByStart regions).map Region.start
          ++ [((sortByStart regions).getLastD dfltRegion).endPos] ∧
    (calculateBreakpoints regions).map Breakpoint.isFirst
      = true :: List.replicate regions.length false ∧
    (calculateBreakpoints regions).map Breakpoint.isLast
      = List.replicate regions.length false ++ [true] ∧
    calculateBreakpoints [] = [] := by
  have hs : sortByStart regions ≠ [] := by
    intro he
    have hl := sortByStart_length regions
    rw [he] at hl
    cases regions with
    | nil => exact h rfl
    | cons a l => simp at hl
  rw [calculateBreakpoints_eq_bpLoop regions h]
  refine ⟨?_, ?_, ?_, ?_, rfl⟩
  · rw [bpLoop_length true _ hs, sortByStart_length]
  · exact bpLoop_positions true _ hs
  · rw [bpLoop_isFirst true _ hs, sortByStart_length]
  · rw [bpLoop_isLast true _ hs, sortByStart_length]

/-- C1 amended, witnessed at a concrete five-region list: five regions
produce six breakpoints. -/
theorem C1_amended_witness :
    ([⟨10, 15, "B", "#3F98F2"⟩, ⟨20, 25, "C", "#9D6039"⟩, ⟨30, 35, "D", "#E3A1C9"⟩,
      ⟨40, 45, "G", "#4FAE57"⟩, ⟨50, 55, "H", "#FFD700"⟩] : List Region) ≠ [] ∧
    (calculateBreakpoints
      [⟨10, 15, "B", "#3F98F2"⟩, ⟨20, 25, "C", "#9D6039"⟩, ⟨30, 35, "D", "#E3A1C9"⟩,
       ⟨40, 45, "G", "#4FAE57"⟩, ⟨50, 55, "H", "#FFD700"⟩]).length = 6 :=
  ⟨by decide,
   (C1_amended
     [⟨10, 15, "B", "#3F98F2"⟩, ⟨20, 25, "C", "#9D6039"⟩, ⟨30, 35, "D", "#E3A1C9"⟩,
      ⟨40, 45, "G", "#4FAE57"⟩, ⟨50, 55, "H", "#FFD700"⟩] (by decide)).1⟩

/-- C2 counterexample: a single region yields two breakpoints (its start
and its end), not one — the end breakpoint is emitted for every
non-empty list, not only when more than one region exists. -/
theorem C2_counterexample :
    calculateBreakpoints [⟨100, 500, "B", "#3F98F2"⟩]
      = [⟨100, 100, true, false⟩, ⟨500, 500, false, true⟩] ∧
    (calculateBreakpoints [⟨100, 500, "B", "#3F98F2"⟩]).length ≠ 1 := by
  decide

/-- C2 amended: for every list containing exactly one region the
Breakpoint Calculator returns exactly two breakpoints — the region's
start flagged isFirst and the region's end flagged isLast. -/
theorem C2_amended (r : Region) :
    calculateBreakpoints [r]
      = [⟨r.start, r.start, true, false⟩, ⟨r.endPos, r.endPos, false, true⟩] := rfl

/-! Helper lemmas for the no-header path of parseInput. -/

theorem processLine_no_header (ln : Nat) (l : List Char) (s : LoopState)
    (hs : s.headerFound = false) (h : (trimChars l).headD ' ' ≠ '>') :
    processLine ln l s = s := by
  unfold processLine
  rw [hs]
  simp only [Bool.not_false, if_true]
  split_ifs <;> rfl

theorem runLines_no_header (ls : List (List Char)) (ln : Nat) (s : LoopState)
    (hs : s.headerFound = false)
    (h : ∀ l ∈ ls, (trimChars l).headD ' ' ≠ '>') :
    runLines ln ls s = s := by
  induction ls generalizing ln s with
  | nil => rfl
  | cons l ls ih =>
    rw [runLines, processLine_no_header ln l s hs (h l (by simp))]
    exact ih (ln + 1) s hs (fun x hx => h x (by simp [hx]))

/-- C3 counterexample: the one-newline input has no line beginning with
the header marker, yet parseInput returns early on blank input and the
no-header warning is never emitted. -/
theorem C3_counterexample :
    (∀ l ∈ splitLines ("\n").toList, (trimChars l).headD ' ' ≠ '>') ∧
    (parseInput ("\n") initialColorState).1.regions = [] ∧
    (parseInput ("\n") initialColorState).1.noHeaderWarning = false := by
  decide

/-- C3 amended: for every input text with some non-whitespace content in
which no line begins (after trimming) with the header marker, parseInput
returns an empty region list and fires the no-header warning; an input
whose header line is present but which yields no regions returns an
empty list without that warning (distinct observable path). Empty or
whitespace-only input returns early without the warning. -/
theorem C3_amended (text : String)
    (hne : trimChars text.toList ≠ [])
    (hnoh : ∀ l ∈ splitLines text.toList, (trimChars l).headD ' ' ≠ '>') :
    (parseInput text initialColorState).1.regions = [] ∧
    (parseInput text initialColorState).1.noHeaderWarning = true ∧
    (parseInput (">seq1") initialColorState).1.regions = [] ∧
    (parseInput (">seq1") initialColorState).1.noHeaderWarning = false := by
  have h0 : runLines 1 (splitLines text.toList) ⟨false, [], [], initialColorState⟩
      = ⟨false, [], [], initialColorState⟩ :=
    runLines_no_header _ 1 _ rfl hnoh
  refine ⟨?_, ?_, by decide, by decide⟩
  · simp only [parseInput, if_neg hne, h0]
  · simp only [parseInput, if_neg hne, h0]
    rfl

/-- C3 amended, witnessed on a comments-plus-stray-data input: no header
line, so the empty region list comes with the no-header warning. -/
theorem C3_amended_witness :
    trimChars ("# c\nx").toList ≠ [] ∧
    (∀ l ∈ splitLines ("# c\nx").toList, (trimChars l).headD ' ' ≠ '>') ∧
    (parseInput ("# c\nx") initialColorState).1.noHeaderWarning = true :=
  ⟨by decide, by decide, (C3_amended ("# c\nx") (by decide) (by decide)).2.1⟩

/-! Helper lemmas for the overlay pass. -/

theorem overlayRectFor_isSome_eq (r : Region) (g : GeneFeature) :
    (overlayRectFor r g).isSome
      = decide (max r.start g.start < min r.endPos g.endPos) := by
  simp only [overlayRectFor]
  split_ifs with h <;> simp [h]

theorem overlayRectFor_isSome (r : Region) (g : GeneFeature) :
    (overlayRectFor r g).isSome ↔ max r.start g.start < min r.endPos g.endPos := by
  rw [overlayRectFor_isSome_eq]
  simp

theorem length_filterMap_eq_filter_isSome {α β : Type} (f : α → Option β) (l : List α) :
    (l.filterMap f).length = (l.filter fun x => (f x).isSome).length := by
  induction l with
  | nil => rfl
  | cons x l ih =>
    rw [List.filterMap_cons, List.filter_cons]
    rcases hx : f x with _ | y
    · simpa [hx] using ih
    · simpa [hx] using ih

theorem filterMap_overlay_length (r : Region) (gs : List GeneFeature) :
    (gs.filterMap fun g => overlayRectFor r g).length
      = (gs.filter fun g => decide (max r.start g.start < min r.endPos g.endPos)).length := by
  rw [length_filterMap_eq_filter_isSome]
  simp only [overlayRectFor_isSome_eq]

/-- C4: the overlay pass paints a rectangle for a (region, gene feature)
pair exactly when max of the starts is strictly below min of the ends; a
region [100,200] against a feature [200,300] paints nothing, and one
region produces exactly one rectangle per overlapping feature. -/
theorem C4_overlay_strict :
    (∀ (r : Region) (g : GeneFeature),
        (overlayRectFor r g).isSome ↔ max r.start g.start < min r.endPos g.endPos) ∧
    overlayRectFor ⟨100, 200, "B", "#3F98F2"⟩ ⟨"f", 200, 300, 1, "#CCCCCC", false⟩
      = none ∧
    (∀ r : Region, overlayOps [r] = GENE_MAP.filterMap fun g => overlayRectFor r g) ∧
    (∀ r : Region,
        (overlayOps [r]).length
          = (GENE_MAP.filter fun g =>
              decide (max r.start g.start < min r.endPos g.endPos)).length) := by
  refine ⟨overlayRectFor_isSome, by decide, ?_, ?_⟩
  · intro r
    simp [overlayOps]
  · intro r
    rw [show overlayOps [r] = GENE_MAP.filterMap fun g => overlayRectFor r g by
      simp [overlayOps]]
    exact filterMap_overlay_length r GENE_MAP

/-- C4, witnessed: a region inside gag strictly overlaps it and its
overlay rectangle is present. -/
theorem C4_overlay_strict_witness :
    max (800 : Int) 790 < min 900 2292 ∧
    (overlayRectFor ⟨800, 900, "B", "#3F98F2"⟩
      ⟨"gag", 790, 2292, 1, "#CCCCCC", false⟩).isSome :=
  ⟨by decide, (C4_overlay_strict.1 ⟨800, 900, "B", "#3F98F2"⟩
      ⟨"gag", 790, 2292, 1, "#CCCCCC", false⟩).mpr (by decide)⟩

/-! Helper lemmas about the accepted data line. -/

theorem ite_min (a b : Int) : (if a > b then b else a) = min a b := by
  split_ifs with h <;> omega

theorem ite_max (a b : Int) : (if a > b then a else b) = max a b := by
  split_ifs with h <;> omega

theorem pushRegion_eq (a b : Int) (parts : List (List Char)) (s : LoopState)
    (hsub : String.mk (joinSpace (parts.drop 2)) ≠ "") :
    pushRegion a b parts s
      = { s with
          regions := s.regions ++ [⟨min a b, max a b,
            String.mk (joinSpace (parts.drop 2)),
            (getColor (String.mk (joinSpace (parts.drop 2))) s.colors).1⟩],
          colors := (getColor (String.mk (joinSpace (parts.drop 2))) s.colors).2 } := by
  simp only [pushRegion]
  rw [if_neg hsub]
  simp only [ite_min, ite_max]

theorem parseDataLine_regions (parts : List (List Char)) (ln : Nat) (s : LoopState) :
    (parseDataLine parts ln s).regions = s.regions ∨
    ∃ a b : Int,
      jsParseInt (String.mk (parts.getD 0 [])) = some a ∧
      jsParseInt (String.mk (parts.getD 1 [])) = some b ∧
      (parseDataLine parts ln s).regions
        = s.regions ++ [⟨min a b, max a b, String.mk (joinSpace (parts.drop 2)),
            (getColor (String.mk (joinSpace (parts.drop 2))) s.colors).1⟩] := by
  unfold parseDataLine
  by_cases h3 : parts.length < 3
  · rw [if_pos h3]
    left
    rfl
  · rw [if_neg h3]
    rcases hA : jsParseInt (String.mk (parts.getD 0 [])) with _ | a
    · left
      rfl
    · rcases hB : jsParseInt (String.mk (parts.getD 1 [])) with _ | b
      · left
        rfl
      · by_cases hsub : String.mk (joinSpace (parts.drop 2)) = ""
        · left
          show (pushRegion a b parts s).regions = s.regions
          simp only [pushRegion]
          rw [if_pos hsub]
        · right
          refine ⟨a, b, rfl, rfl, ?_⟩
          show (pushRegion a b parts s).regions = _
          rw [pushRegion_eq a b parts s hsub]

theorem processLine_le (ln : Nat) (l : List Char) (s : LoopState)
    (h : ∀ r ∈ s.regions, r.start ≤ r.endPos) :
    ∀ r ∈ (processLine ln l s).regions, r.start ≤ r.endPos := by
  intro r hr
  simp only [processLine] at hr
  split_ifs at hr
  · exact h r hr
  · exact h r hr
  · exact h r hr
  · exact h r hr
  · rcases parseDataLine_regions (tokenize (trimChars l)) ln s with hc | ⟨a, b, _, _, hc⟩
    · rw [hc] at hr
      exact h r hr
    · rw [hc, List.mem_append] at hr
      rcases hr with hr | hr
      · exact h r hr
      · simp only [List.mem_singleton] at hr
        subst hr
        exact min_le_max

theorem runLines_le (ls : List (List Char)) (ln : Nat) (s : LoopState)
    (h : ∀ r ∈ s.regions, r.start ≤ r.endPos) :
    ∀ r ∈ (runLines ln ls s).regions, r.start ≤ r.endPos := by
  induction ls generalizing ln s with
  | nil => exact h
  | cons l ls ih =>
    rw [runLines]
    exact ih (ln + 1) (processLine ln l s) (processLine_le ln l s h)

/-- C5: every region parseInput produces has its numeric pair
normalized — start is the min and end is the max of the two parsed
integers, so start ≤ end always holds; the data line 20 10 B yields the
region (10, 20, B). -/
theorem C5_normalization :
    (∀ (text : String) (st : ColorState) (r : Region),
        r ∈ (parseInput text st).1.regions → r.start ≤ r.endPos) ∧
    (∀ (parts : List (List Char)) (ln : Nat) (s : LoopState) (a b : Int),
        ¬ parts.length < 3 →
        jsParseInt (String.mk (parts.getD 0 [])) = some a →
        jsParseInt (String.mk (parts.getD 1 [])) = some b →
        String.mk (joinSpace (parts.drop 2)) ≠ "" →
        (parseDataLine parts ln s).regions
          = s.regions ++ [⟨min a b, max a b, String.mk (joinSpace (parts.drop 2)),
              (getColor (String.mk (joinSpace (parts.drop 2))) s.colors).1⟩]) ∧
    (parseInput (">h\n20 10 B") initialColorState).1.regions
      = [⟨10, 20, "B", "#3F98F2"⟩] := by
  refine ⟨?_, ?_, by decide⟩
  · intro text st r hr
    unfold parseInput at hr
    split_ifs at hr with h0
    · simp at hr
    · exact runLines_le (splitLines text.toList) 1 ⟨false, [], [], st⟩
        (by intro x hx; simp at hx) r hr
  · intro parts ln s a b h3 hA hB hsub
    unfold parseDataLine
    rw [if_neg h3, hA, hB]
    show (pushRegion a b parts s).regions = _
    rw [pushRegion_eq a b parts s hsub]

/-- C5, witnessed: the region parsed from the line 20 10 B is (10, 20)
and indeed satisfies start ≤ end. -/
theorem C5_normalization_witness :
    (⟨10, 20, "B", "#3F98F2"⟩ : Region)
        ∈ (parseInput (">h\n20 10 B") initialColorState).1.regions ∧
    (10 : Int) ≤ 20 :=
  ⟨by decide,
   C5_normalization.1 (">h\n20 10 B") initialColorState
     ⟨10, 20, "B", "#3F98F2"⟩ (by decide)⟩

/-- C10: the integer check of the parser is prefix-lenient — a data line
is dropped for its numbers only when jsParseInt yields none, and
numeric fields with a valid integer prefix (12.5, 10abc) are accepted
truncated to that prefix. -/
theorem C10_parseInt_leniency :
    jsParseInt ("12.5") = some 12 ∧
    jsParseInt ("10abc") = some 10 ∧
    jsParseInt ("abc") = none ∧
    (parseInput (">h\n12.5 10abc B") initialColorState).1.regions
      = [⟨10, 12, "B", "#3F98F2"⟩] ∧
    (∀ (parts : List (List Char)) (ln : Nat) (s : LoopState),
        ¬ parts.length < 3 →
        (jsParseInt (String.mk (parts.getD 0 [])) = none ∨
          jsParseInt (String.mk (parts.getD 1 [])) = none) →
        parseDataLine parts ln s = s) ∧
    (∀ (parts : List (List Char)) (ln : Nat) (s : LoopState) (a b : Int),
        ¬ parts.length < 3 →
        jsParseInt (String.mk (parts.getD 0 [])) = some a →
        jsParseInt (String.mk (parts.getD 1 [])) = some b →
        String.mk (joinSpace (parts.drop 2)) ≠ "" →
        (parseDataLine parts ln s).regions ≠ s.regions) := by
  refine ⟨rfl, rfl, rfl, by decide, ?_, ?_⟩
  · intro parts ln s h3 hn
    unfold parseDataLine
    rw [if_neg h3]
    rcases hA : jsParseInt (String.mk (parts.getD 0 [])) with _ | a
    · rfl
    · rcases hB : jsParseInt (String.mk (parts.getD 1 [])) with _ | b
      · rfl
      · rcases hn with hn | hn
        · rw [hA] at hn
          exact absurd hn (by simp)
        · rw [hB] at hn
          exact absurd hn (by simp)
  · intro parts ln s a b h3 hA hB hsub
    unfold parseDataLine
    rw [if_neg h3, hA, hB]
    show (pushRegion a b parts s).regions ≠ s.regions
    rw [pushRegion_eq a b parts s hsub]
    intro heq
    have hlen := congrArg List.length heq
    simp at hlen

/-- C10, witnessed: the tokenized line 12.5 10abc B is accepted, so the
loop state gains a region instead of skipping the line. -/
theorem C10_parseInt_leniency_witness :
    ¬ ([['1', '2', '.', '5'], ['1', '0', 'a', 'b', 'c'], ['B']] : List (List Char)).length < 3 ∧
    (parseDataLine [['1', '2', '.', '5'], ['1', '0', 'a', 'b', 'c'], ['B']] 2
        ⟨true, [], [], initialColorState⟩).regions ≠ [] :=
  ⟨by decide,
   C10_parseInt_leniency.2.2.2.2.2
     [['1', '2', '.', '5'], ['1', '0', 'a', 'b', 'c'], ['B']] 2
     ⟨true, [], [], initialColorState⟩ 12 10
     (by decide) (by decide) (by decide) (by decide)⟩

/-- C7: createXScale is the pure linear map with domain [0, 9719] and
pixel range [50, 850]; it never clamps, so positions below 0 land left
of pixel 50 and positions above 9719 land right of pixel 850. -/
theorem C7_linear_scale :
    (∀ p : ℚ, createXScale p = 50 + (p - 0) / (9719 - 0) * (850 - 50)) ∧
    RENDER_CONFIG.axisRange = (0, 9719) ∧
    RENDER_CONFIG.margin.left = 50 ∧
    RENDER_CONFIG.width - RENDER_CONFIG.margin.right = 850 ∧
    (∀ p : ℚ, p < 0 → createXScale p < 50) ∧
    (∀ p : ℚ, 9719 < p → 850 < createXScale p) := by
  have hval : ∀ p : ℚ, createXScale p = 50 + p / 9719 * 800 := by
    intro p
    simp only [createXScale, RENDER_CONFIG]
    norm_num
  refine ⟨?_, rfl, rfl, by norm_num [RENDER_CONFIG], ?_, ?_⟩
  · intro p
    rw [hval]
    ring
  · intro p hp
    rw [hval p]
    have h1 : p / 9719 < 0 := div_neg_of_neg_of_pos hp (by norm_num)
    have h2 : p / 9719 * 800 < 0 := mul_neg_of_neg_of_pos h1 (by norm_num)
    linarith
  · intro p hp
    rw [hval p]
    have h1 : 1 < p / 9719 := (one_lt_div (by norm_num : (0 : ℚ) < 9719)).mpr hp
    have h2 : 1 * 800 < p / 9719 * 800 :=
      mul_lt_mul_of_pos_right h1 (by norm_num)
    linarith

/-- C7, witnessed at p = -1 and p = 9720: extrapolation past both canvas
edges. -/
theorem C7_linear_scale_witness :
    ((-1 : ℚ) < 0 ∧ createXScale (-1) < 50) ∧
    ((9719 : ℚ) < 9720 ∧ 850 < createXScale 9720) :=
  ⟨⟨by norm_num, C7_linear_scale.2.2.2.2.1 (-1) (by norm_num)⟩,
   ⟨by norm_num, C7_linear_scale.2.2.2.2.2 9720 (by norm_num)⟩⟩

/-- C9: for identical input text and a reset Color Registry, the PNG
pass and the PDF pass of main run drawToContext independently on the
same parsed regions and issue identical operation sequences; the whole
parse-and-render pipeline is a pure function of the input text. -/
theorem C9_deterministic_render :
    (∀ text : String, pngGeometry text = pdfGeometry text) ∧
    (∀ t₁ t₂ : String, t₁ = t₂ →
        parseInput t₁ initialColorState = parseInput t₂ initialColorState ∧
        pngGeometry t₁ = pdfGeometry t₂) :=
  ⟨fun _ => rfl, fun t₁ t₂ h => by rw [h]; exact ⟨rfl, rfl⟩⟩

/-- C9, witnessed on a concrete two-region input. -/
theorem C9_deterministic_render_witness :
    (">h\n100 500 B\n500 1000 A1" : String) = ">h\n100 500 B\n500 1000 A1" ∧
    pngGeometry (">h\n100 500 B\n500 1000 A1")
      = pdfGeometry (">h\n100 500 B\n500 1000 A1") :=
  ⟨rfl,
   (C9_deterministic_render.2 (">h\n100 500 B\n500 1000 A1")
     (">h\n100 500 B\n500 1000 A1") rfl).2⟩

/-! Helper lemmas for the Color Registry session invariant. -/

theorem lookup_append_of_none {β : Type} (A B : List (String × β)) (l : String)
    (h : A.lookup l = none) : (A ++ B).lookup l = B.lookup l := by
  induction A with
  | nil => rfl
  | cons x A ih =>
    rcases x with ⟨k, v⟩
    simp only [List.lookup] at h ⊢
    rcases hk : (l == k) with _ | _
    · rw [hk] at h
      simp only [List.cons_append, List.lookup, hk]
      exact ih h
    · rw [hk] at h
      simp at h

theorem getColor_default (l : String) (st : ColorState) (c : String)
    (h : DEFAULT_COLORS.lookup l = some c) : getColor l st = (c, st) := by
  unfold getColor
  rw [h]

theorem getColor_assigned (l : String) (st : ColorState) (c : String)
    (hD : DEFAULT_COLORS.lookup l = none)
    (h : st.assignedColors.lookup l = some c) : getColor l st = (c, st) := by
  unfold getColor
  rw [hD, h]

theorem getColor_novel (l : String) (st : ColorState)
    (hD : DEFAULT_COLORS.lookup l = none)
    (h : st.assignedColors.lookup l = none) :
    getColor l st
      = (FALLBACK_COLORS.getD (st.fallbackColorIndex % FALLBACK_COLORS.length) "",
         ⟨st.assignedColors
            ++ [(l, FALLBACK_COLORS.getD (st.fallbackColorIndex % FALLBACK_COLORS.length) "")],
          st.fallbackColorIndex + 1⟩) := by
  unfold getColor
  rw [hD, h]

theorem runCalls_append (calls : List String) (l : String) (st : ColorState) :
    runCalls (calls ++ [l]) st = (getColor l (runCalls calls st)).2 := by
  unfold runCalls
  rw [List.foldl_append]
  rfl

theorem novelDistinct_append (calls : List String) (l : String) :
    novelDistinct (calls ++ [l])
      = if DEFAULT_COLORS.lookup l ≠ none ∨ l ∈ novelDistinct calls
        then novelDistinct calls
        else novelDistinct calls ++ [l] := by
  unfold novelDistinct
  rw [List.foldl_append]
  rfl

theorem specAssignedFrom_append (ls : List String) (l : String) (i : Nat) :
    specAssignedFrom i (ls ++ [l])
      = specAssignedFrom i ls
          ++ [(l, FALLBACK_COLORS.getD ((i + ls.length) % FALLBACK_COLORS.length) "")] := by
  induction ls generalizing i with
  | nil => simp [specAssignedFrom]
  | cons x ls ih =>
    have step : specAssignedFrom i ((x :: ls) ++ [l])
        = (x, FALLBACK_COLORS.getD (i % FALLBACK_COLORS.length) "")
            :: specAssignedFrom (i + 1) (ls ++ [l]) := rfl
    rw [step, ih (i + 1)]
    have harith : i + 1 + ls.length = i + (x :: ls).length := by
      rw [List.length_cons]
      omega
    rw [harith]
    rfl

theorem specAssignedFrom_lookup_none (l : String) :
    ∀ (ls : List String) (i : Nat), l ∉ ls → (specAssignedFrom i ls).lookup l = none
  | [], _, _ => rfl
  | x :: ls, i, h => by
    have hx : (l == x) = false := by
      simp only [beq_eq_false_iff_ne, ne_eq]
      intro he
      exact h (by simp [he])
    simp only [specAssignedFrom, List.lookup, hx]
    exact specAssignedFrom_lookup_none l ls (i + 1)
      (fun hm => h (List.mem_cons_of_mem x hm))

theorem specAssignedFrom_lookup_mem (l : String) :
    ∀ (ls : List String) (i : Nat), l ∈ ls →
      ∃ c, (specAssignedFrom i ls).lookup l = some c
  | [], _, h => absurd h (by simp)
  | x :: ls, i, h => by
    by_cases hx : l = x
    · subst hx
      exact ⟨FALLBACK_COLORS.getD (i % FALLBACK_COLORS.length) "",
        by simp [specAssignedFrom, List.lookup]⟩
    · have hm : l ∈ ls := by
        rcases List.mem_cons.mp h with h1 | h1
        · exact absurd h1 hx
        · exact h1
      obtain ⟨c, hc⟩ := specAssignedFrom_lookup_mem l ls (i + 1) hm
      refine ⟨c, ?_⟩
      have hxb : (l == x) = false := by simp [hx]
      simp only [specAssignedFrom, List.lookup, hxb]
      exact hc

theorem specAssignedFrom_getD (ls : List String) :
    ∀ (i k : Nat), k < ls.length →
      (specAssignedFrom i ls).getD k ("", "")
        = (ls.getD k "", FALLBACK_COLORS.getD ((i + k) % FALLBACK_COLORS.length) "")
  | i, 0, h => by
    cases ls with
    | nil => simp at h
    | cons x ls => simp [specAssignedFrom]
  | i, (k + 1), h => by
    cases ls with
    | nil => simp at h
    | cons x ls =>
      simp only [specAssignedFrom, List.getD_cons_succ]
      rw [specAssignedFrom_getD ls (i + 1) k (by simpa using h)]
      have harith : i + 1 + k = i + (k + 1) := by omega
      rw [harith]

theorem runCalls_inv (calls : List String) :
    (runCalls calls initialColorState).assignedColors
        = specAssignedFrom 0 (novelDistinct calls) ∧
    (runCalls calls initialColorState).fallbackColorIndex
        = (novelDistinct calls).length := by
  induction calls using List.reverseRecOn with
  | nil => exact ⟨rfl, rfl⟩
  | append_singleton calls l ih =>
    obtain ⟨ih1, ih2⟩ := ih
    rw [runCalls_append, novelDistinct_append]
    rcases hD : DEFAULT_COLORS.lookup l with _ | c
    · by_cases hM : l ∈ novelDistinct calls
      · obtain ⟨c0, hc0⟩ := specAssignedFrom_lookup_mem l (novelDistinct calls) 0 hM
        have hc0st : (runCalls calls initialColorState).assignedColors.lookup l = some c0 := by
          rw [ih1]
          exact hc0
        rw [getColor_assigned l _ c0 hD hc0st, if_pos (Or.inr hM)]
        exact ⟨ih1, ih2⟩
      · have hnone : (runCalls calls initialColorState).assignedColors.lookup l = none := by
          rw [ih1]
          exact specAssignedFrom_lookup_none l (novelDistinct calls) 0 hM
        rw [getColor_novel l _ hD hnone, if_neg (by simp [hD, hM])]
        constructor
        · simp only [ih1, ih2, specAssignedFrom_append]
          norm_num
        · simp [ih2]
    · rw [getColor_default l _ c hD, if_pos (Or.inl (by simp [hD]))]
      exact ⟨ih1, ih2⟩

/-- C6: the registry is stable — B always maps to its fixed default
color on any state; a repeated call with the same label returns the same
color; after any call sequence from the initial state the assigned map
is exactly the distinct novel labels in first-sighting order, the k-th
(0-based) carrying fallback color k mod 10; consecutive fallback indices
give different colors; and an 11th distinct novel label cycles back to
the first fallback color. -/
theorem C6_color_registry :
    (∀ st : ColorState, (getColor ("B") st).1 = "#3F98F2") ∧
    (∀ (l : String) (st : ColorState),
        (getColor l (getColor l st).2).1 = (getColor l st).1) ∧
    (∀ calls : List String,
        (runCalls calls initialColorState).assignedColors
          = specAssignedFrom 0 (novelDistinct calls)) ∧
    (∀ (calls : List String) (k : Nat), k < (novelDistinct calls).length →
        ((runCalls calls initialColorState).assignedColors.getD k ("", "")).2
          = FALLBACK_COLORS.getD (k % FALLBACK_COLORS.length) "") ∧
    (∀ k : Nat,
        FALLBACK_COLORS.getD (k % FALLBACK_COLORS.length) ""
          ≠ FALLBACK_COLORS.getD ((k + 1) % FALLBACK_COLORS.length) "") ∧
    (getColor ("X11")
        (runCalls ["X01", "X02", "X03", "X04", "X05", "X06", "X07", "X08", "X09", "X10"]
          initialColorState)).1 = "#FF6347" := by
  refine ⟨fun st => rfl, ?_, fun calls => (runCalls_inv calls).1, ?_, ?_, by decide⟩
  · intro l st
    rcases hD : DEFAULT_COLORS.lookup l with _ | c
    · rcases hA : st.assignedColors.lookup l with _ | c0
      · rw [getColor_novel l st hD hA]
        have hlk : (st.assignedColors
            ++ [(l, FALLBACK_COLORS.getD (st.fallbackColorIndex % FALLBACK_COLORS.length) "")]).lookup l
            = some (FALLBACK_COLORS.getD (st.fallbackColorIndex % FALLBACK_COLORS.length) "") := by
          rw [lookup_append_of_none _ _ l hA]
          simp [List.lookup]
        rw [getColor_assigned l _ _ hD hlk]
      · simp only [getColor_assigned l st c0 hD hA]
    · simp only [getColor_default l st c hD]
  · intro calls k hk
    rw [(runCalls_inv calls).1, specAssignedFrom_getD (novelDistinct calls) 0 k hk]
    simp
  · intro k
    have h1 : (k + 1) % 10 = (k % 10 + 1) % 10 := by omega
    have h2 : k % 10 < 10 := Nat.mod_lt _ (by norm_num)
    rw [show FALLBACK_COLORS.length = 10 from rfl, h1]
    generalize hg : k % 10 = m at h2 ⊢
    interval_cases m <;> decide

/-- C6, witnessed: after the calls X1 then X2, the first recorded novel
label carries the first fallback color. -/
theorem C6_color_registry_witness :
    (0 : Nat) < (novelDistinct ["X1", "X2"]).length ∧
    ((runCalls ["X1", "X2"] initialColorState).assignedColors.getD 0 ("", "")).2
      = "#FF6347" :=
  ⟨by decide, C6_color_registry.2.2.2.1 ["X1", "X2"] 0 (by decide)⟩

/-! Helper lemmas for the legend refinement. -/

theorem specLegendAux_congr : ∀ (rs : List Region) (s₁ s₂ : List String),
    (∀ x, x ∈ s₁ ↔ x ∈ s₂) → specLegendAux s₁ rs = specLegendAux s₂ rs
  | [], _, _, _ => rfl
  | r :: rs, s₁, s₂, h => by
    by_cases hm : r.subtype ∈ s₁
    · simp only [specLegendAux]
      rw [if_pos hm, if_pos ((h _).mp hm)]
      exact specLegendAux_congr rs s₁ s₂ h
    · simp only [specLegendAux]
      rw [if_neg hm, if_neg (fun hx => hm ((h _).mpr hx))]
      congr 1
      exact specLegendAux_congr rs (r.subtype :: s₁) (r.subtype :: s₂)
        (fun x => by simp [h x])

theorem buildSubtypeMap_eq : ∀ (rs : List Region) (acc : List (String × String)),
    buildSubtypeMap acc rs = acc ++ specLegendAux (acc.map Prod.fst) rs
  | [], acc => by simp [buildSubtypeMap, specLegendAux]
  | r :: rs, acc => by
    simp only [buildSubtypeMap, specLegendAux]
    by_cases hm : r.subtype ∈ acc.map Prod.fst
    · have hany : acc.any (fun p => p.1 = r.subtype) = true := by
        simp only [List.any_eq_true, decide_eq_true_eq]
        obtain ⟨p, hp, he⟩ := List.mem_map.mp hm
        exact ⟨p, hp, he⟩
      rw [if_pos hany, if_pos hm]
      exact buildSubtypeMap_eq rs acc
    · have hany : ¬ acc.any (fun p => p.1 = r.subtype) = true := by
        simp only [List.any_eq_true, decide_eq_true_eq]
        rintro ⟨p, hp, he⟩
        exact hm (List.mem_map.mpr ⟨p, hp, he⟩)
      rw [if_neg hany, if_neg hm]
      rw [buildSubtypeMap_eq rs (acc ++ [(r.subtype, r.color)])]
      rw [List.append_assoc]
      congr 1
      show (r.subtype, r.color)
          :: specLegendAux ((acc ++ [(r.subtype, r.color)]).map Prod.fst) rs
        = (r.subtype, r.color) :: specLegendAux (r.subtype :: acc.map Prod.fst) rs
      congr 1
      apply specLegendAux_congr
      intro x
      simp [or_comm]

theorem specLegendAux_keys_nodup : ∀ (rs : List Region) (seen : List String),
    ((specLegendAux seen rs).map Prod.fst).Nodup ∧
      ∀ x ∈ (specLegendAux seen rs).map Prod.fst, x ∉ seen
  | [], _ => ⟨List.nodup_nil, by simp [specLegendAux]⟩
  | r :: rs, seen => by
    by_cases hm : r.subtype ∈ seen
    · simp only [specLegendAux, if_pos hm]
      exact specLegendAux_keys_nodup rs seen
    · simp only [specLegendAux, if_neg hm, List.map_cons]
      obtain ⟨h1, h2⟩ := specLegendAux_keys_nodup rs (r.subtype :: seen)
      refine ⟨List.nodup_cons.mpr ⟨?_, h1⟩, ?_⟩
      · intro hx
        exact (h2 _ hx) (by simp)
      · intro x hx
        rcases List.mem_cons.mp hx with h3 | h3
        · subst h3
          exact hm
        · intro hxs
          exact (h2 x h3) (by simp [hxs])

theorem specLegendAux_lookup (l : String) :
    ∀ (rs : List Region) (seen : List String), l ∉ seen →
      (specLegendAux seen rs).lookup l
        = (rs.find? (fun r => r.subtype == l)).map Region.color
  | [], _, _ => rfl
  | r :: rs, seen, hl => by
    by_cases hm : r.subtype ∈ seen
    · have hne : (r.subtype == l) = false := by
        simp only [beq_eq_false_iff_ne, ne_eq]
        intro he
        exact hl (he ▸ hm)
      simp only [specLegendAux, if_pos hm, List.find?, hne]
      exact specLegendAux_lookup l rs seen hl
    · by_cases he : r.subtype = l
      · subst he
        simp [specLegendAux, if_neg hm, List.lookup, List.find?]
      · have hne1 : (r.subtype == l) = false := by simp [he]
        have hne2 : (l == r.subtype) = false := by
          simp only [beq_eq_false_iff_ne, ne_eq]
          exact fun hh => he hh.symm
        simp only [specLegendAux, if_neg hm, List.lookup, List.find?, hne1, hne2]
        exact specLegendAux_lookup l rs (r.subtype :: seen)
          (by
            intro hx
            rcases List.mem_cons.mp hx with h3 | h3
            · exact he h3.symm
            · exact hl h3)

/-- C8: the legend built by the render engine is exactly the spec-side
legend — one entry per distinct subtype label, in first-occurrence
order, carrying the color of the first region with that label; its keys
are duplicate-free, looking up a label returns the color of the first
region found with it, and regions labeled B then A1 give exactly the two
swatches B, A1 in that order. -/
theorem C8_legend :
    (∀ regions : List Region, legendData regions = specLegend regions) ∧
    (∀ regions : List Region, ((legendData regions).map Prod.fst).Nodup) ∧
    (∀ (regions : List Region) (l : String),
        (legendData regions).lookup l
          = (regions.find? (fun r => r.subtype == l)).map Region.color) ∧
    legendData [⟨100, 500, "B", "#3F98F2"⟩, ⟨500, 1000, "A1", "#FF5700"⟩]
      = [("B", "#3F98F2"), ("A1", "#FF5700")] := by
  refine ⟨?_, ?_, ?_, by decide⟩
  · intro regions
    rw [legendData, buildSubtypeMap_eq regions []]
    rfl
  · intro regions
    rw [legendData, buildSubtypeMap_eq regions []]
    exact (specLegendAux_keys_nodup regions []).1
  · intro regions l
    rw [legendData, buildSubtypeMap_eq regions []]
    exact specLegendAux_lookup l regions [] (by simp)

end HIV

